import Mathlib

/-!
Verification development for the search-augmented chat agent of
Open-LLM-VTuber.  The definitions below are a shallow embedding of
`src/open_llm_vtuber/agent/agents/basic_memory_agent.py` and
`src/open_llm_vtuber/agent/tools/web_search_tool.py`: the chat-memory data
model, the directive parser, the bounded search loop of
`chat_with_memory`, the interrupt handler, the history loader and the
web-search result formatter.  The external LLM and the external search
provider are modelled as oracle functions supplied by the caller.
-/

namespace VTuber

/-- Single quote character, used when building strings that embed quotes. -/
def sq : String := (Char.ofNat 39).toString

/-- Chat message record as stored in the agent memory list: a dict with a
role, text content, and optional name and avatar keys (present only when
display information was attached by `_add_message`). -/
structure Message where
  role : String
  content : String
  name : Option String := none
  avatar : Option String := none
deriving Repr, DecidableEq

/-- The `interrupt_method` constructor argument, a two-valued literal. -/
inductive InterruptMethod where
  | system
  | user
deriving Repr, DecidableEq

/-- Whitespace, as matched by the regex class used in the Python pattern
and stripped by the Python strip method (ASCII range). -/
def isPySpace (c : Char) : Bool :=
  c = ' ' || c = '\t' || c = '\n' || c = '\r' || c = Char.ofNat 11 || c = Char.ofNat 12

/-- Strip of whitespace from both ends, as the Python strip method does. -/
def pyStrip (s : List Char) : List Char :=
  ((s.dropWhile isPySpace).reverse.dropWhile isPySpace).reverse

/-- The literal opening tag of the search directive pattern. -/
def tagChars : List Char := "[SEARCH:".data

/-- Match a literal token at the head of a character list, returning the
remainder on success. -/
def stripTag : List Char → List Char → Option (List Char)
  | [], s => some s
  | _ :: _, [] => none
  | t :: ts, c :: cs => if c = t then stripTag ts cs else none

/-- The lazy dotted group of the directive regex: consume characters up to
the first closing bracket, failing on a newline (the dot of the Python
regex does not match a newline) or on end of input. -/
def scanGroup : List Char → Option (List Char)
  | [] => none
  | c :: cs =>
    if c = ']' then some []
    else if c = '\n' then none
    else (scanGroup cs).map (fun g => c :: g)

/-- Leftmost match of the directive regex over a character list, returning
the captured group: at each position, try the literal tag, then skip the
maximal whitespace run, then scan to the first closing bracket with no
intervening newline. -/
def findDirective : List Char → Option (List Char)
  | [] => none
  | c :: cs =>
    match stripTag tagChars (c :: cs) with
    | some rest =>
      match scanGroup (rest.dropWhile isPySpace) with
      | some g => some g
      | none => findDirective cs
    | none => findDirective cs

/-- Directive extraction as `chat_with_memory` performs it: the captured
group of the first regex match, stripped of surrounding whitespace. -/
def extractSearchQuery (s : String) : Option String :=
  (findDirective s.data).map (fun g => String.mk (pyStrip g))

/-- Scan to the first closing bracket with no newline restriction:
used by the spec-side reading of the directive syntax. -/
def scanToBracket : List Char → Option (List Char)
  | [] => none
  | c :: cs =>
    if c = ']' then some []
    else (scanToBracket cs).map (fun g => c :: g)

/-- Spec-side reading of the directive: at the first occurrence of the
literal tag that is followed by a closing bracket, everything between the
tag and the first closing bracket. -/
def specFirstQuery : List Char → Option (List Char)
  | [] => none
  | c :: cs =>
    match stripTag tagChars (c :: cs) with
    | some rest =>
      match scanToBracket rest with
      | some g => some g
      | none => specFirstQuery cs
    | none => specFirstQuery cs

/-- Spec-side directive extraction: the text between the tag and the first
closing bracket, trimmed of surrounding whitespace. -/
def specExtractQuery (s : String) : Option String :=
  (specFirstQuery s.data).map (fun g => String.mk (pyStrip g))

/-- The iteration ceiling of the search loop (`MAX_SEARCH_ITERATIONS`). -/
def MAX_SEARCH_ITERATIONS : Nat := 2

/-- The guidance message injected after a search round
(`search_context_message` in `chat_with_memory`). -/
def searchContextMessage (query results : String) : String :=
  "Web search for query " ++ sq ++ query ++ sq ++
    " yielded the following results:\n" ++ results ++
    "\nPlease use these results to answer the user" ++ sq ++ "s request."

/-- One recorded call to `search_web` made by the loop, together with the
raw LLM output that triggered it. -/
structure SearchCall where
  rawOutput : String
  query : String
  numResults : Nat
deriving Repr, DecidableEq

/-- Observable trace of one run of the `while` loop of `chat_with_memory`:
the characters yielded downstream, the search calls made, the arguments of
each LLM call, the raw output of each LLM call, the value of
`complete_response` when the loop ends, the final per-turn messages list
(the transient TurnContext), and whether the loop ended through the
`break` of the no-directive branch (rather than by exhausting the
ceiling). -/
structure LoopResult where
  yielded : List Char
  calls : List SearchCall
  llmTrace : List (List Message × String)
  outputs : List String
  completeResponse : String
  ctxMessages : List Message
  finalizedByBreak : Bool
deriving Repr, DecidableEq

/-- The `while current_search_iteration < MAX_SEARCH_ITERATIONS` loop of
`chat_with_memory`, with the remaining iteration budget as fuel.  The LLM
is an oracle indexed by the call number and receiving the messages list
and the system prompt; the search provider is an oracle from query and
result count to the returned text.  In each iteration the full token
stream is buffered into `raw`; if web search is enabled and the directive
regex matches, the stripped query is searched with `num_results = 3`, the
assistant attempt and the guidance message are appended to the messages
list only, and the loop continues with `complete_response` still equal to
the empty string assigned at the top of the iteration; otherwise the raw
output is yielded character by character, becomes `complete_response`, and
the loop breaks. -/
def searchLoopAux (enable : Bool) (llm : Nat → List Message → String → String)
    (searchFn : String → Nat → String) (systemPrompt : String) :
    Nat → Nat → List Message → LoopResult
  | 0, _, messages =>
    { yielded := [], calls := [], llmTrace := [], outputs := [],
      completeResponse := "", ctxMessages := messages, finalizedByBreak := false }
  | fuel + 1, callIdx, messages =>
    let raw := llm callIdx messages systemPrompt
    match if enable then extractSearchQuery raw else none with
    | some q =>
      let results := searchFn q 3
      let messages' := messages ++
        [{ role := "assistant", content := raw },
         { role := "user", content := searchContextMessage q results }]
      let rest := searchLoopAux enable llm searchFn systemPrompt fuel (callIdx + 1) messages'
      { rest with
        calls := { rawOutput := raw, query := q, numResults := 3 } :: rest.calls,
        llmTrace := (messages, systemPrompt) :: rest.llmTrace,
        outputs := raw :: rest.outputs }
    | none =>
      { yielded := raw.data, calls := [], llmTrace := [(messages, systemPrompt)],
        outputs := [raw], completeResponse := raw, ctxMessages := messages,
        finalizedByBreak := true }

/-- Result of one whole turn of `chat_with_memory`: the loop trace and the
agent memory after the turn. -/
structure TurnResult where
  loop : LoopResult
  finalMemory : List Message
deriving Repr, DecidableEq

/-- One whole turn of `chat_with_memory` on a text-only input:
`_to_messages` copies the memory, appends the user message to the copy and
records the user message in the memory; then the bounded search loop runs;
then `_add_message(complete_response, "assistant")` records the assistant
message. -/
def runTurn (enable : Bool) (llm : Nat → List Message → String → String)
    (searchFn : String → Nat → String) (systemPrompt : String)
    (memory : List Message) (userText : String) : TurnResult :=
  let userMsg : Message := { role := "user", content := userText }
  let loopRes := searchLoopAux enable llm searchFn systemPrompt
    MAX_SEARCH_ITERATIONS 0 (memory ++ [userMsg])
  { loop := loopRes,
    finalMemory := (memory ++ [userMsg]) ++
      [{ role := "assistant", content := loopRes.completeResponse }] }

/-- The memory list created in `__init__` before any turn: empty
(`self._memory = []`; `set_system` touches only the `_system` field). -/
def initMemory : List Message := []

/-- `set_system`: with `interrupt_method == "user"` the stored system
prompt is the given text followed by the fixed interruption notice;
otherwise the given text unchanged. -/
def set_system (method : InterruptMethod) (system : String) : String :=
  match method with
  | .user =>
      system ++ "\n\nIf you received `[interrupted by user]` signal, you were interrupted."
  | .system => system

/-- The search loop with a fallible LLM oracle: `chat_with_memory` wraps
no handler around the model call, so a raised error aborts the loop and
propagates.  On success the same trace as `searchLoopAux` is produced. -/
def searchLoopE (enable : Bool) (llm : Nat → List Message → String → Except String String)
    (searchFn : String → Nat → String) (systemPrompt : String) :
    Nat → Nat → List Message → Except String LoopResult
  | 0, _, messages =>
    .ok { yielded := [], calls := [], llmTrace := [], outputs := [],
          completeResponse := "", ctxMessages := messages, finalizedByBreak := false }
  | fuel + 1, callIdx, messages =>
    match llm callIdx messages systemPrompt with
    | .error e => .error e
    | .ok raw =>
      match if enable then extractSearchQuery raw else none with
      | some q =>
        let results := searchFn q 3
        let messages' := messages ++
          [{ role := "assistant", content := raw },
           { role := "user", content := searchContextMessage q results }]
        match searchLoopE enable llm searchFn systemPrompt fuel (callIdx + 1) messages' with
        | .error e => .error e
        | .ok rest =>
          .ok { rest with
                calls := { rawOutput := raw, query := q, numResults := 3 } :: rest.calls,
                llmTrace := (messages, systemPrompt) :: rest.llmTrace,
                outputs := raw :: rest.outputs }
      | none =>
        .ok { yielded := raw.data, calls := [], llmTrace := [(messages, systemPrompt)],
              outputs := [raw], completeResponse := raw, ctxMessages := messages,
              finalizedByBreak := true }

/-- One whole turn with a fallible LLM: the user message is recorded in
memory by `_to_messages` before the loop starts; the assistant message is
recorded only after the loop completes, so a model error leaves the memory
with the user message and no assistant message and propagates to the
caller. -/
def runTurnE (enable : Bool) (llm : Nat → List Message → String → Except String String)
    (searchFn : String → Nat → String) (systemPrompt : String)
    (memory : List Message) (userText : String) :
    List Message × Except String LoopResult :=
  let userMsg : Message := { role := "user", content := userText }
  let memory1 := memory ++ [userMsg]
  match searchLoopE enable llm searchFn systemPrompt MAX_SEARCH_ITERATIONS 0 memory1 with
  | .error e => (memory1, .error e)
  | .ok r =>
    (memory1 ++ [{ role := "assistant", content := r.completeResponse }], .ok r)

/-- The mutable agent fields that interrupt handling touches: the memory
list, the one-shot `_interrupt_handled` flag and the configured interrupt
method. -/
structure AgentState where
  memory : List Message
  interruptHandled : Bool
  interruptMethod : InterruptMethod
deriving Repr, DecidableEq

/-- `handle_interrupt`: a no-op when the one-shot flag is already set;
otherwise set the flag, rewrite the last assistant message content to the
heard text followed by an ellipsis (or append such an assistant message
when the heard text is non-empty and the last message is not an assistant
message), then append the interruption marker whose role follows the
configured interrupt method. -/
def handle_interrupt (heard : String) (st : AgentState) : AgentState :=
  if st.interruptHandled then st
  else
    let mem1 :=
      match st.memory.getLast? with
      | some last =>
        if last.role = "assistant" then
          st.memory.dropLast ++ [{ last with content := heard ++ "..." }]
        else if heard = "" then st.memory
        else st.memory ++ [{ role := "assistant", content := heard ++ "..." }]
      | none =>
        if heard = "" then st.memory
        else st.memory ++ [{ role := "assistant", content := heard ++ "..." }]
    let marker : Message :=
      { role := match st.interruptMethod with | .system => "system" | .user => "user",
        content := "[Interrupted by user]" }
    { st with interruptHandled := true, memory := mem1 ++ [marker] }

/-- `reset_interrupt`: clear the one-shot flag for a new conversation. -/
def reset_interrupt (st : AgentState) : AgentState :=
  { st with interruptHandled := false }

/-- One record of the persisted chat history consumed by
`set_memory_from_history`. -/
structure HistoryEntry where
  role : String
  content : String
deriving Repr, DecidableEq

/-- `set_memory_from_history`: discard the old memory, seed a new list
with the system message, then append one message per history record,
mapping the role `"human"` to `"user"` and any other role to
`"assistant"`, with the content carried over. -/
def set_memory_from_history (oldMemory : List Message) (systemPrompt : String)
    (messages : List HistoryEntry) : List Message :=
  let seeded : List Message := [{ role := "system", content := systemPrompt }]
  messages.foldl
    (fun acc msg =>
      acc ++ [{ role := if msg.role = "human" then "user" else "assistant",
                content := msg.content }])
    seeded

/-- One result record of the DuckDuckGo provider as consumed by
`search_web`: a dict whose title, body and href keys may be missing. -/
structure DDGResult where
  title : Option String
  body : Option String
  href : Option String
deriving Repr, DecidableEq

/-- The per-result block built by `search_web`, substituting the
placeholder for any missing field. -/
def formatResult (i : Nat) (r : DDGResult) : String :=
  "Result " ++ toString (i + 1) ++ ":\n" ++
  "Title: " ++ r.title.getD "N/A" ++ "\n" ++
  "Snippet: " ++ r.body.getD "N/A" ++ "\n" ++
  "URL: " ++ r.href.getD "N/A" ++ "\n"

/-- `search_web` with the provider call modelled as an oracle from query
and result count to either an error or a result list: an error becomes a
descriptive text, an empty result list becomes the fixed no-results text,
and otherwise the numbered blocks are joined with newlines in provider
order. -/
def search_web (provider : String → Nat → Except String (List DDGResult))
    (query : String) (numResults : Nat) : String :=
  match provider query numResults with
  | .error e => "An error occurred during the web search: " ++ e
  | .ok results =>
    if results.isEmpty then "No results found for your query."
    else String.intercalate "\n" (results.enum.map (fun p => formatResult p.1 p.2))

/-! Helper lemmas. -/

/-- On input without a newline, the newline restriction of the lazy group
scan is vacuous. -/
theorem scanGroup_eq_scanToBracket (l : List Char) (h : '\n' ∉ l) :
    scanGroup l = scanToBracket l := by
  induction l with
  | nil => rfl
  | cons c cs ih =>
    have hn : ¬ (c = '\n') := by
      intro hc
      exact h (by simp [hc])
    have ih2 := ih (fun hm => h (List.mem_cons_of_mem _ hm))
    by_cases hb : c = ']'
    · simp [scanGroup, scanToBracket, hb]
    · simp [scanGroup, scanToBracket, hb, hn, ih2]

/-- Stripping a whitespace head commutes out of `pyStrip`. -/
theorem pyStrip_cons_space (c : Char) (g : List Char) (h : isPySpace c = true) :
    pyStrip (c :: g) = pyStrip g := by
  simp [pyStrip, List.dropWhile_cons, h]

/-- The closing bracket is not whitespace. -/
theorem not_pySpace_bracket : isPySpace ']' = false := by decide

/-- On newline-free input, the group scanned after skipping the maximal
whitespace run yields, up to stripping, the text up to the first closing
bracket. -/
theorem scanGroup_dropWhile_strip (l : List Char) (h : '\n' ∉ l) :
    (scanGroup (l.dropWhile isPySpace)).map pyStrip =
      (scanToBracket l).map pyStrip := by
  induction l with
  | nil => rfl
  | cons c cs ih =>
    have hn : ¬ (c = '\n') := by
      intro hc
      exact h (by simp [hc])
    have hcs : '\n' ∉ cs := fun hm => h (List.mem_cons_of_mem _ hm)
    by_cases hs : isPySpace c
    · have hb : ¬ (c = ']') := by
        intro hb
        rw [hb] at hs
        exact absurd hs (by decide)
      rw [List.dropWhile_cons_of_pos hs]
      rw [ih hcs]
      cases hsc : scanToBracket cs with
      | none => simp [scanToBracket, hb, hsc]
      | some g => simp [scanToBracket, hb, hsc, pyStrip_cons_space c g hs]
    · rw [List.dropWhile_cons_of_neg hs]
      by_cases hb : c = ']'
      · simp [scanGroup, scanToBracket, hb]
      · simp [scanGroup, scanToBracket, hb, hn,
          scanGroup_eq_scanToBracket cs hcs]

/-- Characters of the remainder returned by `stripTag` are characters of
the input. -/
theorem stripTag_mem (t : List Char) :
    ∀ (l r : List Char), stripTag t l = some r → ∀ c ∈ r, c ∈ l := by
  induction t with
  | nil =>
    intro l r h c hc
    simp [stripTag] at h
    simpa [← h] using hc
  | cons x xs ih =>
    intro l r h c hc
    cases l with
    | nil => simp [stripTag] at h
    | cons a as =>
      by_cases hax : a = x
      · simp [stripTag, hax] at h
        exact List.mem_cons_of_mem a (ih as r h c hc)
      · simp [stripTag, hax] at h

/-- On newline-free input the regex-based directive scan and the between
tag and first closing bracket reading agree up to stripping. -/
theorem findDirective_eq_spec (l : List Char) (h : '\n' ∉ l) :
    (findDirective l).map pyStrip = (specFirstQuery l).map pyStrip := by
  induction l with
  | nil => rfl
  | cons c cs ih =>
    have hcs : '\n' ∉ cs := fun hm => h (List.mem_cons_of_mem _ hm)
    rw [findDirective, specFirstQuery]
    cases hst : stripTag tagChars (c :: cs) with
    | none => exact ih hcs
    | some rest =>
      have hrest : '\n' ∉ rest := fun hm => h (stripTag_mem _ _ _ hst _ hm)
      have key := scanGroup_dropWhile_strip rest hrest
      cases hsb : scanToBracket rest with
      | none =>
        rw [hsb] at key
        cases hsg : scanGroup (rest.dropWhile isPySpace) with
        | none => simpa [hsg, hsb] using ih hcs
        | some g => rw [hsg] at key; simp at key
      | some g =>
        rw [hsb] at key
        cases hsg : scanGroup (rest.dropWhile isPySpace) with
        | none => rw [hsg] at key; simp at key
        | some g2 =>
          rw [hsg] at key
          simp only [Option.map_some', Option.some.injEq] at key
          simp [hsg, hsb, key]

/-- On a string without a newline, the directive query extracted by the
code equals the spec-side extraction. -/
theorem extract_eq_spec (s : String) (h : '\n' ∉ s.data) :
    extractSearchQuery s = specExtractQuery s := by
  have key := findDirective_eq_spec s.data h
  unfold extractSearchQuery specExtractQuery
  cases h1 : findDirective s.data with
  | none =>
    cases h2 : specFirstQuery s.data with
    | none => rfl
    | some g => rw [h1, h2] at key; simp at key
  | some g =>
    cases h2 : specFirstQuery s.data with
    | none => rw [h1, h2] at key; simp at key
    | some g2 =>
      rw [h1, h2] at key
      simp only [Option.map_some', Option.some.injEq] at key
      simp [key]

/-- Invariant of the bounded search loop: the loop makes at most `fuel`
search calls and at most one search call per model call; every recorded
search call carries `num_results = 3` and a query that is the stripped
capture of the directive regex on the raw output that triggered it; and
every model call receives the stored system prompt. -/
theorem searchLoopAux_inv (enable : Bool)
    (llm : Nat → List Message → String → String)
    (searchFn : String → Nat → String) (systemPrompt : String)
    (fuel : Nat) :
    ∀ (callIdx : Nat) (messages : List Message),
      (searchLoopAux enable llm searchFn systemPrompt fuel callIdx messages).calls.length ≤ fuel ∧
      (searchLoopAux enable llm searchFn systemPrompt fuel callIdx messages).calls.length ≤
        (searchLoopAux enable llm searchFn systemPrompt fuel callIdx messages).llmTrace.length ∧
      (∀ c ∈ (searchLoopAux enable llm searchFn systemPrompt fuel callIdx messages).calls,
        c.numResults = 3 ∧ extractSearchQuery c.rawOutput = some c.query) ∧
      (∀ p ∈ (searchLoopAux enable llm searchFn systemPrompt fuel callIdx messages).llmTrace,
        p.2 = systemPrompt) := by
  induction fuel with
  | zero =>
    intro callIdx messages
    simp [searchLoopAux]
  | succ n ih =>
    intro callIdx messages
    simp only [searchLoopAux]
    split
    · rename_i q hq
      have hextract : extractSearchQuery (llm callIdx messages systemPrompt) = some q := by
        cases enable with
        | false => simp at hq
        | true => simpa using hq
      obtain ⟨h1, h2, h3, h4⟩ := ih (callIdx + 1) (messages ++
        [{ role := "assistant", content := llm callIdx messages systemPrompt },
         { role := "user",
           content := searchContextMessage q
             (searchFn q 3) }])
      refine ⟨by simpa using Nat.succ_le_succ h1, by simpa using Nat.succ_le_succ h2, ?_, ?_⟩
      · intro c hc
        simp only [List.mem_cons] at hc
        rcases hc with rfl | hc
        · exact ⟨rfl, hextract⟩
        · exact h3 c hc
      · intro p hp
        simp only [List.mem_cons] at hp
        rcases hp with rfl | hp
        · rfl
        · exact h4 p hp
    · simp

/-- Messages present when the loop starts are present in the final
TurnContext. -/
theorem searchLoopAux_ctx_mono (enable : Bool)
    (llm : Nat → List Message → String → String)
    (searchFn : String → Nat → String) (systemPrompt : String)
    (fuel : Nat) :
    ∀ (callIdx : Nat) (messages : List Message) (m : Message), m ∈ messages →
      m ∈ (searchLoopAux enable llm searchFn systemPrompt fuel callIdx messages).ctxMessages := by
  induction fuel with
  | zero =>
    intro callIdx messages m hm
    simpa [searchLoopAux] using hm
  | succ n ih =>
    intro callIdx messages m hm
    simp only [searchLoopAux]
    split
    · exact ih (callIdx + 1) _ m (List.mem_append_left _ hm)
    · simpa using hm

/-- For every recorded search call, the assistant attempt holding the raw
output and the injected guidance message are members of the final
TurnContext. -/
theorem searchLoopAux_calls_ctx (enable : Bool)
    (llm : Nat → List Message → String → String)
    (searchFn : String → Nat → String) (systemPrompt : String)
    (fuel : Nat) :
    ∀ (callIdx : Nat) (messages : List Message),
      ∀ c ∈ (searchLoopAux enable llm searchFn systemPrompt fuel callIdx messages).calls,
        ({ role := "assistant", content := c.rawOutput } : Message) ∈
          (searchLoopAux enable llm searchFn systemPrompt fuel callIdx messages).ctxMessages ∧
        ({ role := "user",
           content := searchContextMessage c.query (searchFn c.query 3) } : Message) ∈
          (searchLoopAux enable llm searchFn systemPrompt fuel callIdx messages).ctxMessages := by
  induction fuel with
  | zero =>
    intro callIdx messages c hc
    simp [searchLoopAux] at hc
  | succ n ih =>
    intro callIdx messages c hc
    simp only [searchLoopAux] at hc ⊢
    revert hc
    split
    · rename_i q hq
      intro hc
      simp only [List.mem_cons] at hc
      rcases hc with rfl | hc
      · constructor
        · exact searchLoopAux_ctx_mono enable llm searchFn systemPrompt n (callIdx + 1) _ _
            (by simp)
        · exact searchLoopAux_ctx_mono enable llm searchFn systemPrompt n (callIdx + 1) _ _
            (by simp)
      · exact ih (callIdx + 1) _ c hc
    · intro hc
      simp at hc

/-- When the loop ends through the break of the no-directive branch, the
final `complete_response` is the raw output of the last model call. -/
theorem searchLoopAux_last_output (enable : Bool)
    (llm : Nat → List Message → String → String)
    (searchFn : String → Nat → String) (systemPrompt : String)
    (fuel : Nat) :
    ∀ (callIdx : Nat) (messages : List Message),
      (searchLoopAux enable llm searchFn systemPrompt fuel callIdx messages).finalizedByBreak = true →
      ∃ pre, (searchLoopAux enable llm searchFn systemPrompt fuel callIdx messages).outputs =
        pre ++ [(searchLoopAux enable llm searchFn systemPrompt fuel callIdx messages).completeResponse] := by
  induction fuel with
  | zero =>
    intro callIdx messages h
    simp [searchLoopAux] at h
  | succ n ih =>
    intro callIdx messages h
    simp only [searchLoopAux] at h ⊢
    revert h
    split
    · intro h
      obtain ⟨pre, hp⟩ := ih (callIdx + 1) _ (by simpa using h)
      refine ⟨llm callIdx messages systemPrompt :: pre, ?_⟩
      simpa using hp
    · intro h
      exact ⟨[], rfl⟩

/-- When web search is enabled and the loop ends through the break, the
final response contains no directive. -/
theorem searchLoopAux_break_nodirective
    (llm : Nat → List Message → String → String)
    (searchFn : String → Nat → String) (systemPrompt : String)
    (fuel : Nat) :
    ∀ (callIdx : Nat) (messages : List Message),
      (searchLoopAux true llm searchFn systemPrompt fuel callIdx messages).finalizedByBreak = true →
      extractSearchQuery
        (searchLoopAux true llm searchFn systemPrompt fuel callIdx messages).completeResponse = none := by
  induction fuel with
  | zero =>
    intro callIdx messages h
    simp [searchLoopAux] at h
  | succ n ih =>
    intro callIdx messages h
    simp only [searchLoopAux] at h ⊢
    revert h
    split
    · intro h
      exact ih (callIdx + 1) _ (by simpa using h)
    · rename_i hq
      intro h
      simpa using hq

/-- A model error in the current iteration aborts the fallible loop with
that error. -/
theorem searchLoopE_err_first (enable : Bool)
    (llm : Nat → List Message → String → Except String String)
    (searchFn : String → Nat → String) (systemPrompt : String)
    (fuel callIdx : Nat) (messages : List Message) (e : String)
    (h : llm callIdx messages systemPrompt = .error e) :
    searchLoopE enable llm searchFn systemPrompt (fuel + 1) callIdx messages = .error e := by
  simp [searchLoopE, h]

/-- A model error in the second iteration, after a first iteration that
triggered a search, aborts the fallible loop with that error. -/
theorem searchLoopE_err_second (enable : Bool)
    (llm : Nat → List Message → String → Except String String)
    (searchFn : String → Nat → String) (systemPrompt : String)
    (fuel callIdx : Nat) (messages : List Message) (raw q e : String)
    (h0 : llm callIdx messages systemPrompt = .ok raw)
    (hq : (if enable then extractSearchQuery raw else none) = some q)
    (h1 : llm (callIdx + 1)
        (messages ++
          [{ role := "assistant", content := raw },
           { role := "user",
             content := searchContextMessage q (searchFn q 3) }]) systemPrompt = .error e) :
    searchLoopE enable llm searchFn systemPrompt (fuel + 2) callIdx messages = .error e := by
  simp [searchLoopE, h0, hq, h1]

/-- Folding appends of singletons produces the seed followed by the mapped
list. -/
theorem foldl_append_singleton {α β : Type} (f : α → β) :
    ∀ (l : List α) (seed : List β),
      l.foldl (fun acc x => acc ++ [f x]) seed = seed ++ l.map f := by
  intro l
  induction l with
  | nil => intro seed; simp
  | cons x xs ih =>
    intro seed
    simp [List.foldl_cons, ih]

/-! Claim theorems. -/

/-- Claim C3: for every turn with web search disabled, no search call is
issued, the characters yielded downstream and the finalized
`complete_response` are exactly the raw output of the single model call,
and the memory gains the user message and that raw output as the
assistant message — regardless of whether the output contains
directive-like text. -/
theorem c3_disabled_passthrough
    (llm : Nat → List Message → String → String)
    (searchFn : String → Nat → String) (systemPrompt : String)
    (memory : List Message) (userText : String) :
    (runTurn false llm searchFn systemPrompt memory userText).loop.calls = [] ∧
    (runTurn false llm searchFn systemPrompt memory userText).loop.yielded =
      (llm 0 (memory ++ [{ role := "user", content := userText }]) systemPrompt).data ∧
    (runTurn false llm searchFn systemPrompt memory userText).loop.completeResponse =
      llm 0 (memory ++ [{ role := "user", content := userText }]) systemPrompt ∧
    (runTurn false llm searchFn systemPrompt memory userText).finalMemory =
      memory ++
        [{ role := "user", content := userText },
         { role := "assistant",
           content := llm 0 (memory ++ [{ role := "user", content := userText }]) systemPrompt }] := by
  refine ⟨rfl, rfl, rfl, ?_⟩
  exact List.append_assoc memory
    [{ role := "user", content := userText }]
    [{ role := "assistant",
       content := llm 0 (memory ++ [{ role := "user", content := userText }]) systemPrompt }]

/-- Claim C4: for every turn with web search enabled, the number of search
calls never exceeds the ceiling of 2 and never exceeds the number of model
calls (at most one search per loop iteration); every issued search call
carries the result-count hint 3 and, as its query, the stripped capture of
the first match of the directive pattern on that iteration's raw output;
and on newline-free output this capture is exactly the text between the
literal tag and the first closing bracket, trimmed of surrounding
whitespace. -/
theorem c4_search_call_discipline
    (llm : Nat → List Message → String → String)
    (searchFn : String → Nat → String) (systemPrompt : String)
    (memory : List Message) (userText : String) :
    (runTurn true llm searchFn systemPrompt memory userText).loop.calls.length ≤
      MAX_SEARCH_ITERATIONS ∧
    (runTurn true llm searchFn systemPrompt memory userText).loop.calls.length ≤
      (runTurn true llm searchFn systemPrompt memory userText).loop.llmTrace.length ∧
    (∀ c ∈ (runTurn true llm searchFn systemPrompt memory userText).loop.calls,
      c.numResults = 3 ∧ extractSearchQuery c.rawOutput = some c.query) ∧
    (∀ s : String, '\n' ∉ s.data → extractSearchQuery s = specExtractQuery s) := by
  obtain ⟨h1, h2, h3, _⟩ := searchLoopAux_inv true llm searchFn systemPrompt
    MAX_SEARCH_ITERATIONS 0 (memory ++ [{ role := "user", content := userText }])
  exact ⟨h1, h2, h3, fun s hs => extract_eq_spec s hs⟩

/-- Claim C5: for every turn with web search enabled that the loop
finalizes through the no-directive break, the memory gains exactly the
user message and one assistant message holding the finalized text, that
text is the raw output of the final model call and contains no directive,
and for every search round the assistant attempt and the injected
search-results user message appear in the transient TurnContext only. -/
theorem c5_single_assistant_commit
    (llm : Nat → List Message → String → String)
    (searchFn : String → Nat → String) (systemPrompt : String)
    (memory : List Message) (userText : String)
    (h : (runTurn true llm searchFn systemPrompt memory userText).loop.finalizedByBreak = true) :
    (runTurn true llm searchFn systemPrompt memory userText).finalMemory =
      memory ++
        [{ role := "user", content := userText },
         { role := "assistant",
           content := (runTurn true llm searchFn systemPrompt memory userText).loop.completeResponse }] ∧
    (∃ pre, (runTurn true llm searchFn systemPrompt memory userText).loop.outputs =
      pre ++ [(runTurn true llm searchFn systemPrompt memory userText).loop.completeResponse]) ∧
    extractSearchQuery
      (runTurn true llm searchFn systemPrompt memory userText).loop.completeResponse = none ∧
    (∀ c ∈ (runTurn true llm searchFn systemPrompt memory userText).loop.calls,
      ({ role := "assistant", content := c.rawOutput } : Message) ∈
        (runTurn true llm searchFn systemPrompt memory userText).loop.ctxMessages ∧
      ({ role := "user",
         content := searchContextMessage c.query (searchFn c.query 3) } : Message) ∈
        (runTurn true llm searchFn systemPrompt memory userText).loop.ctxMessages) := by
  have h2 : (searchLoopAux true llm searchFn systemPrompt MAX_SEARCH_ITERATIONS 0
      (memory ++ [{ role := "user", content := userText }])).finalizedByBreak = true := h
  refine ⟨?_, ?_, ?_, ?_⟩
  · exact List.append_assoc memory
      [{ role := "user", content := userText }]
      [{ role := "assistant",
         content := (runTurn true llm searchFn systemPrompt memory userText).loop.completeResponse }]
  · exact searchLoopAux_last_output true llm searchFn systemPrompt
      MAX_SEARCH_ITERATIONS 0 (memory ++ [{ role := "user", content := userText }]) h2
  · exact searchLoopAux_break_nodirective llm searchFn systemPrompt
      MAX_SEARCH_ITERATIONS 0 (memory ++ [{ role := "user", content := userText }]) h2
  · exact searchLoopAux_calls_ctx true llm searchFn systemPrompt
      MAX_SEARCH_ITERATIONS 0 (memory ++ [{ role := "user", content := userText }])

/-- Claim C6: a model error in any iteration leaves the memory with the
user message recorded and no assistant message for the turn, and an error
raised by the first or the second model call propagates to the caller
unchanged and without a retry. -/
theorem c6_model_error_propagates (enable : Bool)
    (llm : Nat → List Message → String → Except String String)
    (searchFn : String → Nat → String) (systemPrompt : String)
    (memory : List Message) (userText : String) :
    (∀ e, (runTurnE enable llm searchFn systemPrompt memory userText).2 = .error e →
      (runTurnE enable llm searchFn systemPrompt memory userText).1 =
        memory ++ [{ role := "user", content := userText }]) ∧
    (∀ e, llm 0 (memory ++ [{ role := "user", content := userText }]) systemPrompt = .error e →
      runTurnE enable llm searchFn systemPrompt memory userText =
        (memory ++ [{ role := "user", content := userText }], .error e)) ∧
    (∀ raw q e,
      llm 0 (memory ++ [{ role := "user", content := userText }]) systemPrompt = .ok raw →
      (if enable then extractSearchQuery raw else none) = some q →
      llm 1 (memory ++ [{ role := "user", content := userText }] ++
          [{ role := "assistant", content := raw },
           { role := "user",
             content := searchContextMessage q (searchFn q 3) }]) systemPrompt = .error e →
      runTurnE enable llm searchFn systemPrompt memory userText =
        (memory ++ [{ role := "user", content := userText }], .error e)) := by
  refine ⟨?_, ?_, ?_⟩
  · intro e he
    unfold runTurnE at he ⊢
    cases hr : searchLoopE enable llm searchFn systemPrompt MAX_SEARCH_ITERATIONS 0
        (memory ++ [{ role := "user", content := userText }]) with
    | error e2 => simp [hr]
    | ok r => simp [hr] at he
  · intro e he
    have hloop := searchLoopE_err_first enable llm searchFn systemPrompt 1 0
      (memory ++ [{ role := "user", content := userText }]) e he
    simp only [runTurnE, show MAX_SEARCH_ITERATIONS = 1 + 1 from rfl, hloop]
  · intro raw q e h0 hq h1
    have hloop := searchLoopE_err_second enable llm searchFn systemPrompt 0 0
      (memory ++ [{ role := "user", content := userText }]) raw q e h0 hq h1
    simp only [runTurnE, show MAX_SEARCH_ITERATIONS = 0 + 2 from rfl, hloop]

/-- Claim C7: the search formatter is a total function of the provider
outcome — a provider error becomes the descriptive error text, an empty
result set becomes the fixed no-results text, and a non-empty result set
becomes the newline-joined numbered blocks in provider order; a result
with all fields missing renders exactly like one whose fields all hold
the placeholder. -/
theorem c7_search_web_contract
    (provider : String → Nat → Except String (List DDGResult))
    (query : String) (n : Nat) :
    (∀ e, provider query n = .error e →
      search_web provider query n = "An error occurred during the web search: " ++ e) ∧
    (provider query n = .ok [] →
      search_web provider query n = "No results found for your query.") ∧
    (∀ rs, provider query n = .ok rs → rs ≠ [] →
      search_web provider query n =
        String.intercalate "\n" (rs.enum.map (fun p => formatResult p.1 p.2))) ∧
    (∀ i, formatResult i { title := none, body := none, href := none } =
      formatResult i { title := some "N/A", body := some "N/A", href := some "N/A" }) := by
  refine ⟨?_, ?_, ?_, ?_⟩
  · intro e he
    simp [search_web, he]
  · intro he
    simp [search_web, he]
  · intro rs hrs hne
    simp [search_web, hrs, hne]
  · intro i
    rfl

/-- Claim C8: `handle_interrupt` is idempotent — a second call without an
intervening `reset_interrupt` leaves the state produced by the first call
unchanged, because the first call sets the one-shot flag. -/
theorem c8_handle_interrupt_idempotent (heard : String) (st : AgentState) :
    handle_interrupt heard (handle_interrupt heard st) = handle_interrupt heard st := by
  have once : ∀ s : AgentState, s.interruptHandled = true → handle_interrupt heard s = s := by
    intro s hs
    simp [handle_interrupt, hs]
  by_cases h : st.interruptHandled = true
  · rw [once st h, once st h]
  · refine once _ ?_
    simp [handle_interrupt, h]

/-- Claim C9: `set_memory_from_history` replaces the memory, independently
of its previous value, with the system message followed by one message per
history record in original order, mapping the role human to user and any
other role to assistant, with content carried over. -/
theorem c9_history_load_shape (oldMemory : List Message) (systemPrompt : String)
    (entries : List HistoryEntry) :
    set_memory_from_history oldMemory systemPrompt entries =
      { role := "system", content := systemPrompt } ::
        entries.map (fun msg =>
          ({ role := if msg.role = "human" then "user" else "assistant",
             content := msg.content } : Message)) := by
  unfold set_memory_from_history
  rw [foldl_append_singleton]
  simp

/-- Claim C10: with interrupt method user, `set_system` stores the given
text extended by the fixed interruption suffix — not the text verbatim —
and that stored string is the system prompt received by every model call
of a turn; with interrupt method system the text is stored unchanged. -/
theorem c10_set_system_suffix (text : String) :
    set_system .user text =
      text ++ "\n\nIf you received `[interrupted by user]` signal, you were interrupted." ∧
    set_system .user text ≠ text ∧
    set_system .system text = text ∧
    (∀ (enable : Bool) (llm : Nat → List Message → String → String)
        (searchFn : String → Nat → String) (memory : List Message) (userText : String),
      ∀ p ∈ (runTurn enable llm searchFn (set_system .user text) memory userText).loop.llmTrace,
        p.2 = set_system .user text) := by
  refine ⟨rfl, ?_, rfl, ?_⟩
  · intro h
    have hlen : (text ++
        "\n\nIf you received `[interrupted by user]` signal, you were interrupted.").length =
        text.length := congrArg String.length h
    rw [String.length_append] at hlen
    have hsuf : 0 <
        ("\n\nIf you received `[interrupted by user]` signal, you were interrupted." :
          String).length := by decide
    omega
  · intro enable llm searchFn memory userText
    obtain ⟨_, _, _, h4⟩ := searchLoopAux_inv enable llm searchFn (set_system .user text)
      MAX_SEARCH_ITERATIONS 0 (memory ++ [{ role := "user", content := userText }])
    exact h4

/-- Claim C1 (failing input): with web search enabled and a model that
emits a directive on every call, the loop performs two searches and then
exits by the iteration condition, so nothing is yielded downstream, the
finalized text is the empty string (not the last buffered output), and the
assistant message stored in memory is empty — the directive-bearing output
is dropped rather than passed through verbatim. -/
theorem c1_ceiling_drops_buffered_output :
    (runTurn true (fun _ _ _ => "I need more. [SEARCH: something else]")
      (fun _ _ => "Search result: found something.") "sys" [] "Keep searching.").loop.calls.map
        (fun c => c.query) = ["something else", "something else"] ∧
    (runTurn true (fun _ _ _ => "I need more. [SEARCH: something else]")
      (fun _ _ => "Search result: found something.") "sys" [] "Keep searching.").loop.yielded = [] ∧
    (runTurn true (fun _ _ _ => "I need more. [SEARCH: something else]")
      (fun _ _ => "Search result: found something.") "sys" [] "Keep searching.").loop.completeResponse
      = "" ∧
    (runTurn true (fun _ _ _ => "I need more. [SEARCH: something else]")
      (fun _ _ => "Search result: found something.") "sys" [] "Keep searching.").loop.finalizedByBreak
      = false ∧
    (runTurn true (fun _ _ _ => "I need more. [SEARCH: something else]")
      (fun _ _ => "Search result: found something.") "sys" [] "Keep searching.").finalMemory =
      [{ role := "user", content := "Keep searching." },
       { role := "assistant", content := "" }] := by
  refine ⟨by decide, by decide, by decide, by decide, by decide⟩

/-- Claim C2 (failing input): on a freshly constructed agent the memory is
empty and `set_system` stores the prompt in a separate field without
seeding the memory, so after one complete turn with search disabled the
memory is exactly the user and assistant messages — it holds no system
message at all. -/
theorem c2_memory_not_seeded_with_system :
    (runTurn false (fun _ _ _ => "Echo: Hello, world!") (fun _ _ => "")
      (set_system .user "You are a helpful assistant.") initMemory "Hello, world!").finalMemory =
      [{ role := "user", content := "Hello, world!" },
       { role := "assistant", content := "Echo: Hello, world!" }] ∧
    ((runTurn false (fun _ _ _ => "Echo: Hello, world!") (fun _ _ => "")
      (set_system .user "You are a helpful assistant.") initMemory "Hello, world!").finalMemory.all
        (fun m => m.role != "system")) = true ∧
    (runTurn false (fun _ _ _ => "Echo: Hello, world!") (fun _ _ => "")
      (set_system .user "You are a helpful assistant.") initMemory "Hello, world!").finalMemory.length
      = 2 := by
  refine ⟨by decide, by decide, by decide⟩

/-! Witnesses instantiating the hypothesis-bearing claim theorems. -/

/-- Witness for claim C4: a concrete turn whose first output requests a
search; the recorded call carries result count 3 and the trimmed query,
and the directive extraction agrees with the spec-side reading on this
newline-free output. -/
theorem c4_search_call_discipline_witness :
    ({ rawOutput := "I need to find that out. [SEARCH: latest AI news]",
       query := "latest AI news", numResults := 3 } : SearchCall).numResults = 3 ∧
    extractSearchQuery "I need to find that out. [SEARCH: latest AI news]" =
      some "latest AI news" ∧
    extractSearchQuery "I need to find that out. [SEARCH: latest AI news]" =
      specExtractQuery "I need to find that out. [SEARCH: latest AI news]" := by
  have h := c4_search_call_discipline
    (fun i _ _ => if i = 0 then "I need to find that out. [SEARCH: latest AI news]"
      else "AI is advancing rapidly according to recent news.")
    (fun _ _ => "Result 1: AI is advancing rapidly.") "sys" [] "What is new?"
  have hmem : SearchCall.mk "I need to find that out. [SEARCH: latest AI news]"
        "latest AI news" 3 ∈
      (runTurn true
        (fun i _ _ => if i = 0 then "I need to find that out. [SEARCH: latest AI news]"
          else "AI is advancing rapidly according to recent news.")
        (fun _ _ => "Result 1: AI is advancing rapidly.") "sys" [] "What is new?").loop.calls := by
    decide
  have hnl : '\n' ∉ ("I need to find that out. [SEARCH: latest AI news]" : String).data := by
    decide
  exact ⟨(h.2.2.1 _ hmem).1, (h.2.2.1 _ hmem).2,
    h.2.2.2 "I need to find that out. [SEARCH: latest AI news]" hnl⟩

/-- Witness for claim C5: a concrete two-iteration turn that finalizes
after one search round; the theorem applied at it gives the committed
memory shape and the containment of the intermediate messages in the
TurnContext. -/
theorem c5_single_assistant_commit_witness :
    (runTurn true
      (fun i _ _ => if i = 0 then "I need to find that out. [SEARCH: latest AI news]"
        else "AI is advancing rapidly according to recent news.")
      (fun _ _ => "Result 1: AI is advancing rapidly.") "sys" [] "What is new?").finalMemory =
      [] ++
        [{ role := "user", content := "What is new?" },
         { role := "assistant",
           content := (runTurn true
             (fun i _ _ => if i = 0 then "I need to find that out. [SEARCH: latest AI news]"
               else "AI is advancing rapidly according to recent news.")
             (fun _ _ => "Result 1: AI is advancing rapidly.") "sys" []
             "What is new?").loop.completeResponse }] ∧
    ({ role := "assistant",
       content := "I need to find that out. [SEARCH: latest AI news]" } : Message) ∈
      (runTurn true
        (fun i _ _ => if i = 0 then "I need to find that out. [SEARCH: latest AI news]"
          else "AI is advancing rapidly according to recent news.")
        (fun _ _ => "Result 1: AI is advancing rapidly.") "sys" [] "What is new?").loop.ctxMessages := by
  have h := c5_single_assistant_commit
    (fun i _ _ => if i = 0 then "I need to find that out. [SEARCH: latest AI news]"
      else "AI is advancing rapidly according to recent news.")
    (fun _ _ => "Result 1: AI is advancing rapidly.") "sys" [] "What is new?" (by decide)
  have hmem : SearchCall.mk "I need to find that out. [SEARCH: latest AI news]"
        "latest AI news" 3 ∈
      (runTurn true
        (fun i _ _ => if i = 0 then "I need to find that out. [SEARCH: latest AI news]"
          else "AI is advancing rapidly according to recent news.")
        (fun _ _ => "Result 1: AI is advancing rapidly.") "sys" [] "What is new?").loop.calls := by
    decide
  exact ⟨h.1, (h.2.2.2 _ hmem).1⟩

/-- Witness for claim C6: a model that errors on its first call makes the
turn return the recorded user message and the propagated error. -/
theorem c6_model_error_propagates_witness :
    runTurnE false (fun _ _ _ => .error "connection refused") (fun _ _ => "") "sys" [] "Hi" =
      ([] ++ [{ role := "user", content := "Hi" }], .error "connection refused") := by
  exact (c6_model_error_propagates false (fun _ _ _ => .error "connection refused")
    (fun _ _ => "") "sys" [] "Hi").2.1 "connection refused" rfl

/-- Witness for claim C7: the three provider outcomes at concrete inputs,
each obtained by applying the contract theorem. -/
theorem c7_search_web_contract_witness :
    search_web (fun _ _ => .error "network unreachable") "ai news" 3 =
      "An error occurred during the web search: network unreachable" ∧
    search_web (fun _ _ => .ok []) "ai news" 3 = "No results found for your query." ∧
    search_web (fun _ _ => .ok [{ title := some "T", body := none, href := some "U" }])
      "ai news" 3 =
      String.intercalate "\n"
        (([{ title := some "T", body := none, href := some "U" }] : List DDGResult).enum.map
          (fun p => formatResult p.1 p.2)) := by
  refine ⟨?_, ?_, ?_⟩
  · exact (c7_search_web_contract (fun _ _ => .error "network unreachable") "ai news" 3).1
      "network unreachable" rfl
  · exact (c7_search_web_contract (fun _ _ => .ok []) "ai news" 3).2.1 rfl
  · exact (c7_search_web_contract
      (fun _ _ => .ok [{ title := some "T", body := none, href := some "U" }]) "ai news" 3).2.2.1
      [{ title := some "T", body := none, href := some "U" }] rfl (by simp)

/-- Witness for claim C10: at a concrete prompt the stored system string
is the extended one and differs from the given text, and a concrete model
call of a turn receives it. -/
theorem c10_set_system_suffix_witness :
    set_system .user "Be nice." =
      "Be nice." ++
        "\n\nIf you received `[interrupted by user]` signal, you were interrupted." ∧
    set_system .user "Be nice." ≠ "Be nice." ∧
    set_system .system "Be nice." = "Be nice." ∧
    (([] ++ [({ role := "user", content := "Hi" } : Message)], set_system .user "Be nice.")).2 =
      set_system .user "Be nice." := by
  have h := c10_set_system_suffix "Be nice."
  have hp : (([] ++ [({ role := "user", content := "Hi" } : Message)],
      set_system .user "Be nice.")) ∈
      (runTurn false (fun _ _ _ => "Hello there.") (fun _ _ => "")
        (set_system .user "Be nice.") [] "Hi").loop.llmTrace := by
    decide
  exact ⟨h.1, h.2.1, h.2.2.1,
    h.2.2.2 false (fun _ _ _ => "Hello there.") (fun _ _ => "") [] "Hi" _ hp⟩

end VTuber
